import Mathlib

/-!
# Verification of the DB-TG-Explorer safe query engine

A shallow embedding, in Lean 4, of the schema-introspection / safe-query core
of the repository: the identifier validator and raw-statement validator of
`bot/queries/generic.py`, the pagination codec of `bot/utils/paging.py`, the
weight-domain resolver of `bot/queries/weight.py`, and the identifier-quoting
dynamic-SQL helpers of `bot/db.py`.

Python strings are modelled as `List Char` (`PyStr`).  String methods used by
the source (`strip`, `rstrip`, `upper`, `startswith`, `in`, `split`, `join`,
`replace`, `int()`, `str()`) are modelled for ASCII inputs, matching CPython's
behaviour on ASCII text; the case-mapping model is ASCII-only.  A Python
function that can raise an exception is modelled as returning an `Option`,
with `none` standing for the raised exception.
-/

/-- A Python string, modelled as a list of characters. -/
abbrev PyStr := List Char

/-- Convert a Lean string literal into the `PyStr` model. -/
def str (s : String) : PyStr := s.data

/-- The double-quote character (named to keep proofs readable). -/
def dq : Char := '"'

/-- Python `str.strip()` whitespace set (ASCII part): space, tab, newline,
carriage return, vertical tab, form feed. -/
def isSpace (c : Char) : Bool :=
  c = ' ' || c = '\t' || c = '\n' || c = '\r' || c = '\x0b' || c = '\x0c'

/-- Python `str.lstrip()` with default (whitespace) argument. -/
def pyLstrip (s : PyStr) : PyStr := s.dropWhile isSpace

/-- Python `str.rstrip()` with default (whitespace) argument. -/
def pyRstrip (s : PyStr) : PyStr := (s.reverse.dropWhile isSpace).reverse

/-- Python `str.strip()` with default (whitespace) argument. -/
def pyStrip (s : PyStr) : PyStr := pyLstrip (pyRstrip s)

/-- Python `str.rstrip(";")`: remove trailing semicolons. -/
def pyRstripSemi (s : PyStr) : PyStr :=
  (s.reverse.dropWhile (fun c => c = ';')).reverse

/-- Python `str.upper()` (ASCII model: maps a–z to A–Z, like `Char.toUpper`). -/
def pyUpper (s : PyStr) : PyStr := s.map Char.toUpper

/-- Python `needle in haystack` substring test. -/
def isSubstr (n : PyStr) : PyStr → Bool
  | [] => n.isEmpty
  | c :: t => n.isPrefixOf (c :: t) || isSubstr n t

-- ---------------------------------------------------------------------------
-- bot/queries/generic.py : _safe_identifier
-- ---------------------------------------------------------------------------

/-- Character class `[a-zA-Z_]` of the identifier regex. -/
def isIdentStart (c : Char) : Bool :=
  ('a' ≤ c && c ≤ 'z') || ('A' ≤ c && c ≤ 'Z') || c = '_'

/-- Character class `[a-zA-Z0-9_]` of the identifier regex. -/
def isIdentChar (c : Char) : Bool :=
  isIdentStart c || ('0' ≤ c && c ≤ '9')

/-- Full anchored match of the documented grammar `^[A-Za-z_][A-Za-z0-9_]*$`,
read as matching the whole string (the spec's reading of the regex). -/
def matchesIdentGrammar : PyStr → Bool
  | [] => false
  | c :: t => isIdentStart c && t.all isIdentChar

/-- Drop a single trailing newline, if present (helper modelling Python's
`$` anchor, which also matches just before a final `'\n'`). -/
def dropTrailingNewline (s : PyStr) : PyStr :=
  match s.reverse with
  | '\n' :: r => r.reverse
  | _ => s

/-- Model of `_safe_identifier` from `bot/queries/generic.py`:
`bool(re.match(r"^[a-zA-Z_][a-zA-Z0-9_]*$", name))`.

CPython's `$` (without `re.MULTILINE`) matches at the end of the string *or
just before a newline at the end of the string*, and `re.match` anchors only
the start; since the character classes exclude `'\n'`, the regex accepts
exactly the grammar matches plus any grammar match followed by one `'\n'`. -/
def safe_identifier (name : PyStr) : Bool :=
  matchesIdentGrammar (dropTrailingNewline name)

-- ---------------------------------------------------------------------------
-- Decimal numerals: Python `str(int)` and `int(str)`
-- ---------------------------------------------------------------------------

/-- Decimal digit character for a digit value (values ≥ 9 map to `'9'`;
only ever used with values < 10). -/
def digitChar (d : Nat) : Char :=
  match d with
  | 0 => '0' | 1 => '1' | 2 => '2' | 3 => '3' | 4 => '4'
  | 5 => '5' | 6 => '6' | 7 => '7' | 8 => '8' | _ => '9'

/-- Helper for `natDigits`: peel off decimal digits least-significant first,
accumulating most-significant first.  `fuel` bounds the recursion depth
(`n < fuel` always holds at call sites). -/
def natDigitsAux : Nat → Nat → PyStr → PyStr
  | 0, _, acc => acc
  | fuel + 1, n, acc =>
    if n < 10 then digitChar n :: acc
    else natDigitsAux fuel (n / 10) (digitChar (n % 10) :: acc)

/-- Python `str(n)` for a non-negative integer: most-significant-first
decimal digits, `"0"` for zero. -/
def natDigits (n : Nat) : PyStr := natDigitsAux (n + 1) n []

/-- Python `str(o)` for an integer. -/
def pyStrInt (o : Int) : PyStr :=
  if o < 0 then '-' :: natDigits o.natAbs else natDigits o.toNat

/-- Decimal digit test `[0-9]`. -/
def isDigit (c : Char) : Bool := '0' ≤ c && c ≤ '9'

/-- Digit value of a decimal digit character. -/
def digVal (c : Char) : Nat := c.toNat - 48

mutual

/-- After the first digit, Python `int()` accepts digits with single
underscores strictly between digits. -/
def validUDAux : PyStr → Bool
  | [] => true
  | c :: t => if c = '_' then validUDUnd t else isDigit c && validUDAux t

/-- After an underscore a digit must follow. -/
def validUDUnd : PyStr → Bool
  | [] => false
  | d :: t => isDigit d && validUDAux t

end

/-- The digit part accepted by Python `int()`: a non-empty digit string with
optional single underscores between digits (no leading/trailing/doubled
underscore). -/
def validUD : PyStr → Bool
  | [] => false
  | c :: t => isDigit c && validUDAux t

/-- Value of an underscore-grouped digit string (underscores ignored). -/
def udVal (s : PyStr) : Nat :=
  s.foldl (fun acc c => if c = '_' then acc else acc * 10 + digVal c) 0

/-- Parse the digit part of a Python integer literal, `none` on failure. -/
def parseUD (s : PyStr) : Option Nat :=
  if validUD s then some (udVal s) else none

/-- Python `int(s)` on an ASCII string: strip whitespace, optional single
sign, then underscore-grouped digits.  `none` models a raised `ValueError`. -/
def pyInt (s : PyStr) : Option Int :=
  match pyStrip s with
  | [] => none
  | c :: r =>
    if c = '+' then (parseUD r).map Int.ofNat
    else if c = '-' then (parseUD r).map (fun n => -(n : Int))
    else (parseUD (c :: r)).map Int.ofNat

-- ---------------------------------------------------------------------------
-- bot/queries/generic.py : validate_select
-- ---------------------------------------------------------------------------

/-- Constant `_BLOCKED_KEYWORDS` from `bot/queries/generic.py`, in source order.
(The source stores them in a `set`; the iteration order of a Python set is
unspecified, so we fix the literal order.  All properties proved below are
independent of the order except which keyword is named when several occur.) -/
def BLOCKED_KEYWORDS : List PyStr :=
  [str "INSERT", str "UPDATE", str "DELETE", str "DROP", str "ALTER",
   str "TRUNCATE", str "CREATE", str "GRANT", str "REVOKE", str "COPY",
   str "EXECUTE"]

/-- Python regex `\w` word-character class (ASCII model). -/
def isWordChar (c : Char) : Bool := isIdentChar c

/-- No word boundary is crossed coming from `prev` into a word character:
`\b` holds before the current position iff the previous character (if any)
is not a word character (all searched keywords consist of word characters). -/
def boundaryBefore : Option Char → Bool
  | none => true
  | some c => !isWordChar c

/-- Boundary check after the keyword: it holds iff the next character (if any) is not a
word character. -/
def boundaryAfter : PyStr → Bool
  | [] => true
  | c :: _ => !isWordChar c

/-- The keyword occurs as a whole word exactly at the current position,
where `prev` is the character immediately before this position. -/
def wwHere (prev : Option Char) (kw s : PyStr) : Bool :=
  boundaryBefore prev && kw.isPrefixOf s && boundaryAfter (s.drop kw.length)

/-- Scan of `re.search(rf"\b{kw}\b", s)`: try every position. -/
def wholeWordAux (prev : Option Char) (kw : PyStr) : PyStr → Bool
  | [] => wwHere prev kw []
  | c :: t => wwHere prev kw (c :: t) || wholeWordAux (some c) kw t

/-- Success of the regex search for the keyword as a whole word (the keywords contain only word
characters, so `\b` is a plain boundary test). -/
def wholeWord (kw s : PyStr) : Bool := wholeWordAux none kw s

/-- Error message of rule 1 of `validate_select`. -/
def ONLY_SELECT_MSG : PyStr := str "Only SELECT statements are allowed."

/-- Error message of rule 2 of `validate_select`. -/
def SEMI_MSG : PyStr := str "Semicolons are not allowed."

/-- Error message of rule 3 of `validate_select`:
`f"Keyword {kw} is not allowed."`. -/
def kwMsg (kw : PyStr) : PyStr := str "Keyword " ++ kw ++ str " is not allowed."

/-- Model of `validate_select` from `bot/queries/generic.py`:

```python
stripped = sql.strip()
if not stripped.upper().startswith("SELECT"):
    return "Only SELECT statements are allowed."
if ";" in stripped:
    return "Semicolons are not allowed."
upper = stripped.upper()
for kw in _BLOCKED_KEYWORDS:
    if re.search(rf"\x7bkw\x7d", upper):   # pattern \b kw \b
        return f"Keyword ... is not allowed."
return None
```
-/
def validate_select (sql : PyStr) : Option PyStr :=
  let stripped := pyStrip sql
  if !((str "SELECT").isPrefixOf (pyUpper stripped)) then some ONLY_SELECT_MSG
  else if isSubstr [';'] stripped then some SEMI_MSG
  else
    match BLOCKED_KEYWORDS.find? (fun kw => wholeWord kw (pyUpper stripped)) with
    | some kw => some (kwMsg kw)
    | none => none

/-- Model of `ensure_limit` from `bot/queries/generic.py`:

```python
if "LIMIT" not in sql.upper():
    return sql.rstrip().rstrip(";") + f" LIMIT \x7bmax_rows\x7d"
return sql
```
-/
def ensure_limit (sql : PyStr) (maxRows : Int) : PyStr :=
  if !(isSubstr (str "LIMIT") (pyUpper sql)) then
    pyRstripSemi (pyRstrip sql) ++ str " LIMIT " ++ pyStrInt maxRows
  else sql

-- ---------------------------------------------------------------------------
-- bot/utils/paging.py : pagination codec
-- ---------------------------------------------------------------------------

/-- Constant `SEPARATOR` (the colon) from `bot/utils/paging.py`. -/
def sepChar : Char := ':'

/-- Constant `PREFIX` (the letter p) from `bot/utils/paging.py`. -/
def prefixTok : PyStr := ['p']

/-- Python `SEPARATOR.join(parts)`. -/
def joinSep : List PyStr → PyStr
  | [] => []
  | [p] => p
  | p :: q :: rest => p ++ sepChar :: joinSep (q :: rest)

/-- Python `data.split(SEPARATOR)` (always returns a non-empty list;
`"".split(":") == [""]`). -/
def splitSep : PyStr → List PyStr
  | [] => [[]]
  | c :: t =>
    if c = sepChar then [] :: splitSep t
    else
      match splitSep t with
      | [] => [[c]]
      | h :: r => (c :: h) :: r

/-- Model of `encode` from `bot/utils/paging.py`:

```python
parts = [PREFIX, module, str(offset)]
if extra:
    parts.append(extra)
return SEPARATOR.join(parts)
```
-/
def encode (module : PyStr) (offset : Int) (extra : PyStr) : PyStr :=
  joinSep (if extra.isEmpty then [prefixTok, module, pyStrInt offset]
           else [prefixTok, module, pyStrInt offset, extra])

/-- Model of `decode` from `bot/utils/paging.py`:

```python
parts = data.split(SEPARATOR)
module = parts[1] if len(parts) > 1 else ""
offset = int(parts[2]) if len(parts) > 2 else 0
extra = parts[3] if len(parts) > 3 else ""
return module, offset, extra
```

`int(parts[2])` raises `ValueError` when the third field is not an integer
literal; the raised exception is modelled as `none`.  (Out-of-range `getD`
defaults model the `if len(parts) > k else` fallbacks.) -/
def decode (data : PyStr) : Option (PyStr × Int × PyStr) :=
  if 2 < (splitSep data).length then
    match pyInt ((splitSep data).getD 2 []) with
    | some o => some ((splitSep data).getD 1 [], o, (splitSep data).getD 3 [])
    | none => none
  else some ((splitSep data).getD 1 [], 0, (splitSep data).getD 3 [])

-- ---------------------------------------------------------------------------
-- Database model (the `public` schema seen through asyncpg)
-- ---------------------------------------------------------------------------

/-- A row of `information_schema.columns` for one column, as used by
`describe_table` / `get_columns`. -/
structure Column where
  column_name : PyStr
  data_type : PyStr
  is_nullable : PyStr
  column_default : Option PyStr
deriving DecidableEq

/-- A row of `pg_indexes` for one index, as used by `describe_table`. -/
structure Index where
  indexname : PyStr
  indexdef : PyStr
deriving DecidableEq

/-- One base table of the `public` schema: its exact name (PostgreSQL allows
arbitrary characters in a quoted name), its catalog column rows in ordinal
order, its index rows, and its data rows (cell values abstracted to strings,
one list entry per column). -/
structure Table where
  name : PyStr
  columns : List Column
  indexes : List Index
  rows : List (List PyStr)
deriving DecidableEq

/-- The `public` schema: a list of base tables. -/
structure DB where
  tables : List Table
deriving DecidableEq

/-- Catalog lookup by exact table name (the parameterised
`table_name = $1` comparisons of `information_schema` queries). -/
def DB.find (db : DB) (t : PyStr) : Option Table :=
  db.tables.find? (fun tb => tb.name = t)

/-- Column rows the catalog returns for a name (empty when absent). -/
def catalogColumns (db : DB) (t : PyStr) : List Column :=
  ((db.find t).map Table.columns).getD []

/-- Index rows the catalog returns for a name (empty when absent). -/
def catalogIndexes (db : DB) (t : PyStr) : List Index :=
  ((db.find t).map Table.indexes).getD []

/-- One SQL round-trip: the query text sent to the driver, and the bound
parameters passed alongside it (never interpolated into the text). -/
structure SqlCall where
  text : PyStr
  params : List PyStr
deriving DecidableEq

/-- Constant `_DESCRIBE_SQL` from `bot/queries/generic.py` (fixed text, `$1` bound). -/
def DESCRIBE_SQL : PyStr :=
  str "\nSELECT column_name, data_type, is_nullable, column_default\nFROM information_schema.columns\nWHERE table_schema = 'public'\n  AND table_name = $1\nORDER BY ordinal_position;\n"

/-- Constant `_INDEXES_SQL` from `bot/queries/generic.py` (fixed text, `$1` bound). -/
def INDEXES_SQL : PyStr :=
  str "\nSELECT indexname, indexdef\nFROM pg_indexes\nWHERE schemaname = 'public'\n  AND tablename = $1\nORDER BY indexname;\n"

/-- The `table_exists` query text from `bot/queries/generic.py`. -/
def EXISTS_SQL : PyStr :=
  str "SELECT 1 FROM information_schema.tables WHERE table_schema='public' AND table_name=$1"

/-- The interpolated count query of `browse_table`:
`f'SELECT count(*) FROM "..."'` with the table name spliced in. -/
def countSQL (table : PyStr) : PyStr :=
  str "SELECT count(*) FROM " ++ dq :: table ++ [dq]

/-- The interpolated data query of `browse_table`:
`f'SELECT * FROM "..." ORDER BY 1 DESC LIMIT $1 OFFSET $2'`. -/
def dataSQL (table : PyStr) : PyStr :=
  str "SELECT * FROM " ++ dq :: table ++ dq :: str " ORDER BY 1 DESC LIMIT $1 OFFSET $2"

-- ---------------------------------------------------------------------------
-- bot/queries/generic.py : catalog / browsing operations
-- ---------------------------------------------------------------------------

/-- Model of `describe_table` from `bot/queries/generic.py`: result paired with the
SQL calls issued.  Rejected names return `([], [])` without any SQL. -/
def describe_table (db : DB) (table : PyStr) :
    (List Column × List Index) × List SqlCall :=
  if safe_identifier table then
    ((catalogColumns db table, catalogIndexes db table),
     [⟨DESCRIBE_SQL, [table]⟩, ⟨INDEXES_SQL, [table]⟩])
  else (([], []), [])

/-- Model of `get_columns` from `bot/queries/generic.py`: *no* identifier check; the
name is sent as a bound parameter of the fixed catalog query. -/
def get_columns (db : DB) (table : PyStr) : List PyStr × List SqlCall :=
  ((catalogColumns db table).map Column.column_name, [⟨DESCRIBE_SQL, [table]⟩])

/-- Model of `table_exists` from `bot/queries/generic.py`: identifier check first,
then a parameterised catalog probe (`val is not None`). -/
def table_exists (db : DB) (table : PyStr) : Bool × List SqlCall :=
  if safe_identifier table then
    ((db.find table).isSome, [⟨EXISTS_SQL, [table]⟩])
  else (false, [])

/-- Lexicographic `≤` on cell values (by code point), modelling the
database's ordering of column 1 for `ORDER BY 1 DESC` on text values. -/
def lexLe : PyStr → PyStr → Bool
  | [], _ => true
  | _ :: _, [] => false
  | a :: s, b :: t => if a = b then lexLe s t else decide (a < b)

/-- Descending comparison of two rows by their first cell. -/
def rowGe (r s : List PyStr) : Bool := lexLe (s.getD 0 []) (r.getD 0 [])

/-- Insert into a descending-sorted row list. -/
def insertRowDesc (r : List PyStr) : List (List PyStr) → List (List PyStr)
  | [] => [r]
  | s :: rest => if rowGe r s then r :: s :: rest else s :: insertRowDesc r rest

/-- Sorting for `ORDER BY 1 DESC` (insertion sort, descending by first cell). -/
def sortRowsDesc : List (List PyStr) → List (List PyStr)
  | [] => []
  | r :: rest => insertRowDesc r (sortRowsDesc rest)

/-- Result set of the data query of `browse_table`:
`ORDER BY 1 DESC LIMIT $1 OFFSET $2`. -/
def pageRows (rows : List (List PyStr)) (limit offset : Nat) :
    List (List PyStr) :=
  ((sortRowsDesc rows).drop offset).take limit

/-- Model of `browse_table` from `bot/queries/generic.py`, paired with the SQL calls
issued.  An unsafe name returns `([], [], 0)` with no SQL; on a safe name the
interpolated count query runs first (`none` models the asyncpg error raised
when the table does not exist), then the interpolated data query; an empty
result set yields empty headers/rows but keeps the computed total. -/
def browse_table (db : DB) (table : PyStr) (limit offset : Nat) :
    Option (List PyStr × List (List PyStr) × Option Int) × List SqlCall :=
  if safe_identifier table then
    match db.find table with
    | none => (none, [⟨countSQL table, []⟩])
    | some tb =>
      let count_val : Option Int := some (tb.rows.length : Int)
      let total : Option Int := count_val
      let data := pageRows tb.rows limit offset
      let calls := [⟨countSQL table, []⟩,
                    ⟨dataSQL table, [natDigits limit, natDigits offset]⟩]
      if data.isEmpty then (some ([], [], total), calls)
      else (some (tb.columns.map Column.column_name, data, total), calls)
  else (some ([], [], some 0), [])

/-- A sample database used in concrete checks below. -/
def sampleDB : DB :=
  DB.mk
    [⟨str "steps_daily",
      [⟨str "day", str "date", str "NO", none⟩,
       ⟨str "steps", str "integer", str "YES", none⟩],
      [⟨str "steps_daily_pkey", str "CREATE UNIQUE INDEX ..."⟩],
      [[str "2024-01-02", str "8000"], [str "2024-01-01", str "7000"]]⟩,
     ⟨str "empty_tbl", [⟨str "id", str "integer", str "NO", none⟩], [], []⟩,
     ⟨str "my table", [⟨str "x", str "text", str "YES", none⟩], [],
      [[str "v"]]⟩]

-- ---------------------------------------------------------------------------
-- bot/queries/weight.py : domain resolution
-- ---------------------------------------------------------------------------

/-- Constant `TABLE_CANDIDATES` from `bot/queries/weight.py`. -/
def TABLE_CANDIDATES : List PyStr :=
  [str "measurements_weight", str "weight", str "weight_measurements",
   str "body_weight"]

/-- Constant `_DATE_CANDIDATES` from `bot/queries/weight.py`. -/
def DATE_CANDIDATES : List PyStr :=
  [str "date", str "measured_at", str "timestamp", str "created_at",
   str "time"]

/-- Constant `_VALUE_CANDIDATES` from `bot/queries/weight.py`. -/
def VALUE_CANDIDATES : List PyStr :=
  [str "weight_kg", str "weight", str "value", str "kg"]

/-- Constant `_SOURCE_CANDIDATES` from `bot/queries/weight.py`. -/
def SOURCE_CANDIDATES : List PyStr :=
  [str "source", str "data_source", str "origin"]

/-- Python `str.lower()` (ASCII model, mirroring `pyUpper`). -/
def pyLower (s : PyStr) : PyStr := s.map Char.toLower

/-- The value `lower_map[key]` of the dict comprehension
`\x7bc.lower(): c for c in available_cols\x7d`: among the columns whose
lowercase form equals `key`, the *last* one wins (later dict insertions
overwrite earlier ones). -/
def lowerMapGet (available_cols : List PyStr) (key : PyStr) : Option PyStr :=
  (available_cols.filter (fun c => pyLower c = key)).getLast?

/-- Model of `_first_match` from `bot/queries/weight.py`:

```python
lower_map = \x7bc.lower(): c for c in available_cols\x7d
for cand in candidates:
    if cand.lower() in lower_map:
        return lower_map[cand.lower()]
return None
```
-/
def first_match (available_cols candidates : List PyStr) : Option PyStr :=
  (candidates.find? (fun cand => (lowerMapGet available_cols (pyLower cand)).isSome)).bind
    (fun cand => lowerMapGet available_cols (pyLower cand))

/-- The mapping resolved by a successful `weight.init()`:
the module globals `_table`, `_date_col`, `_value_col`, `_source_col`. -/
structure WeightMapping where
  table : PyStr
  dateCol : PyStr
  valueCol : PyStr
  sourceCol : Option PyStr
deriving DecidableEq

/-- Model of `init` from `bot/queries/weight.py`, run from fresh module state:
pick the first candidate table that exists; resolve the date/value/source
columns with `_first_match`; fail (`none`, i.e. `return False`) when no
candidate table exists or a required role (date or value) is unresolved.
(`if not _date_col or not _value_col` — the resolved names are non-empty
strings whenever present, so Python falsiness coincides with `None`.) -/
def weightInit (db : DB) : Option WeightMapping :=
  match TABLE_CANDIDATES.find? (fun t => (table_exists db t).1) with
  | none => none
  | some t =>
    let cols := (get_columns db t).1
    match first_match cols DATE_CANDIDATES, first_match cols VALUE_CANDIDATES with
    | some d, some v => some ⟨t, d, v, first_match cols SOURCE_CANDIDATES⟩
    | _, _ => none

/-- Position of a candidate in a candidate list (0-based; length of the
list when absent) — used to state "first match wins". -/
def candIdx (a : PyStr) : List PyStr → Nat
  | [] => 0
  | b :: t => if b = a then 0 else candIdx a t + 1

/-- Database for the resolver example of the spec: the first candidate
table exists, with columns `id`, `measured_at`, `weight_kg`; a later
candidate (`weight`) also exists and must be ignored. -/
def weightDB : DB :=
  DB.mk
    [⟨str "measurements_weight",
      [⟨str "id", str "integer", str "NO", none⟩,
       ⟨str "measured_at", str "timestamp", str "NO", none⟩,
       ⟨str "weight_kg", str "numeric", str "YES", none⟩],
      [], []⟩,
     ⟨str "weight",
      [⟨str "id", str "integer", str "NO", none⟩,
       ⟨str "when", str "timestamp", str "NO", none⟩,
       ⟨str "kg", str "numeric", str "YES", none⟩],
      [], []⟩]

-- ---------------------------------------------------------------------------
-- bot/db.py : identifier quoting and dynamic SQL
-- ---------------------------------------------------------------------------

/-- Python `ident.replace('"', '""')`. -/
def escQuotes (s : PyStr) : PyStr :=
  s.flatMap (fun c => if c = dq then [dq, dq] else [c])

/-- Model of `_quote_ident` from `bot/db.py`:
`f'"..."'` around `ident.replace('"', '""')`. -/
def quote_ident (ident : PyStr) : PyStr := dq :: escQuotes ident ++ [dq]

/-- The query text built by `get_row_count` in `bot/db.py`:
`f"SELECT COUNT(*) FROM \x7btbl\x7d"` with
`tbl = f"\x7b_quote_ident(schema)\x7d.\x7b_quote_ident(table_name)\x7d"`. -/
def get_row_count_sql (table_name schema : PyStr) : PyStr :=
  str "SELECT COUNT(*) FROM " ++ quote_ident schema ++ '.' :: quote_ident table_name

/-- The query text built by `get_rows` in `bot/db.py`:
`f"SELECT * FROM \x7btbl\x7d \x7border_clause\x7d LIMIT $1 OFFSET $2"`,
where `order_clause` is `f"ORDER BY \x7b_quote_ident(sort_by)\x7d"` when a
sort column is given and `""` otherwise. -/
def get_rows_sql (table_name schema : PyStr) (sort_by : Option PyStr) : PyStr :=
  let tbl := quote_ident schema ++ '.' :: quote_ident table_name
  let order_clause := match sort_by with
    | some c => str "ORDER BY " ++ quote_ident c
    | none => []
  str "SELECT * FROM " ++ tbl ++ ' ' :: order_clause ++ str " LIMIT $1 OFFSET $2"

mutual

/-- Lexer for a SQL quoted identifier after its opening `"` has been
consumed: `""` is a literal quote, a lone `"` closes the identifier, end of
input means an unterminated token (`none`).  Returns the decoded body and
the remaining input. -/
def lexQuotedAux : PyStr → Option (PyStr × PyStr)
  | [] => none
  | c :: rest =>
    if c = dq then lexQuotedClose rest
    else (lexQuotedAux rest).map (fun p => (c :: p.1, p.2))

/-- A `"` was just read inside the identifier: a second `"` is an escaped
literal quote, anything else (or end of input) closes the identifier. -/
def lexQuotedClose : PyStr → Option (PyStr × PyStr)
  | [] => some ([], [])
  | d :: rest2 =>
    if d = dq then (lexQuotedAux rest2).map (fun p => (dq :: p.1, p.2))
    else some ([], d :: rest2)

end

/-- Lex one SQL quoted identifier (standard `"..."` with `""` escapes) from
the front of the input. -/
def lexQuoted (s : PyStr) : Option (PyStr × PyStr) :=
  match s with
  | c :: rest => if c = dq then lexQuotedAux rest else none
  | [] => none

/-- UTF-8 byte length of a string (Telegram's 64-byte `callback_data`
ceiling counts bytes; all tokens built here are ASCII, one byte per char). -/
def pyLenBytes (s : PyStr) : Nat := (s.map Char.utf8Size).sum

/-- The "Browse" button token built by `table_actions` in
`bot/ui/keyboards.py`: `pg_encode("brw", 0, table_name)`. -/
def browseToken (table_name : PyStr) : PyStr := encode (str "brw") 0 table_name

-- ---------------------------------------------------------------------------
-- Helper lemmas: substrings, upper-casing
-- ---------------------------------------------------------------------------

theorem isSubstr_of_right {n b : PyStr} (a : PyStr) (h : isSubstr n b = true) :
    isSubstr n (a ++ b) = true := by
  induction a with
  | nil => simpa using h
  | cons c t ih =>
    simp only [List.cons_append, isSubstr, Bool.or_eq_true]
    exact Or.inr ih

theorem isSubstr_nil_left (h : PyStr) : isSubstr [] h = true := by
  cases h <;> simp [isSubstr]

theorem isSubstr_of_left {n a : PyStr} (b : PyStr) (h : isSubstr n a = true) :
    isSubstr n (a ++ b) = true := by
  induction a with
  | nil =>
    simp only [isSubstr, List.isEmpty_iff] at h
    subst h
    exact isSubstr_nil_left b
  | cons c t ih =>
    simp only [isSubstr, Bool.or_eq_true] at h
    rcases h with h | h
    · have hp : n <+: c :: t := List.isPrefixOf_iff_prefix.mp h
      have hp2 : n <+: (c :: t) ++ b := hp.trans (List.prefix_append _ _)
      simp only [List.cons_append, isSubstr, Bool.or_eq_true]
      exact Or.inl (List.isPrefixOf_iff_prefix.mpr hp2)
    · simp only [List.cons_append, isSubstr, Bool.or_eq_true]
      exact Or.inr (ih h)

theorem pyUpper_append (a b : PyStr) :
    pyUpper (a ++ b) = pyUpper a ++ pyUpper b := by
  simp [pyUpper]

-- ---------------------------------------------------------------------------
-- Helper lemmas: decimal numerals
-- ---------------------------------------------------------------------------

theorem isDigit_digitChar (d : Nat) : isDigit (digitChar d) = true := by
  unfold digitChar
  split <;> decide

theorem natDigitsAux_eq_digits (n : Nat) :
    ∀ fuel acc, 0 < n → n < fuel →
      natDigitsAux fuel n acc = ((Nat.digits 10 n).map digitChar).reverse ++ acc := by
  induction n using Nat.strong_induction_on with
  | _ n ih =>
    intro fuel acc hpos hfuel
    match fuel with
    | 0 => omega
    | f + 1 =>
      rw [natDigitsAux]
      by_cases hlt : n < 10
      · simp only [if_pos hlt]
        rw [Nat.digits_def' (by norm_num : 1 < 10) hpos]
        have h10 : n / 10 = 0 := Nat.div_eq_of_lt hlt
        have hm : n % 10 = n := Nat.mod_eq_of_lt hlt
        rw [h10, hm]
        simp
      · simp only [if_neg hlt]
        push_neg at hlt
        have hq_pos : 0 < n / 10 := Nat.div_pos hlt (by norm_num)
        have hq_lt_n : n / 10 < n := Nat.div_lt_self hpos (by norm_num)
        have hq_lt_f : n / 10 < f := by omega
        rw [ih (n / 10) hq_lt_n f (digitChar (n % 10) :: acc) hq_pos hq_lt_f]
        rw [Nat.digits_def' (by norm_num : 1 < 10) hpos]
        simp

theorem natDigits_eq_digits {n : Nat} (h : 0 < n) :
    natDigits n = ((Nat.digits 10 n).map digitChar).reverse := by
  rw [natDigits, natDigitsAux_eq_digits n (n + 1) [] h (Nat.lt_succ_self n)]
  simp

theorem mem_natDigits_isDigit {n : Nat} {c : Char} (h : c ∈ natDigits n) :
    isDigit c = true := by
  rcases Nat.eq_zero_or_pos n with h0 | hpos
  · subst h0
    simp only [natDigits, natDigitsAux] at h
    simp only [show (0 < 10) = True by simp, if_true, List.mem_singleton] at h
    subst h
    decide
  · rw [natDigits_eq_digits hpos] at h
    rw [List.mem_reverse, List.mem_map] at h
    obtain ⟨d, _, rfl⟩ := h
    exact isDigit_digitChar d

/-- Value computation: folding the `int()` accumulator over a reversed
little-endian digit list is Horner evaluation. -/
theorem foldl_digits_reverse (ds : List Nat) (hds : ∀ d ∈ ds, d < 10) :
    ∀ a : Nat,
      ((ds.map digitChar).reverse).foldl
        (fun acc c => if c = '_' then acc else acc * 10 + digVal c) a =
      a * 10 ^ ds.length + Nat.ofDigits 10 ds := by
  induction ds with
  | nil => intro a; simp
  | cons d t ih =>
    intro a
    have hd : d < 10 := hds d (List.mem_cons_self d t)
    have ht : ∀ x ∈ t, x < 10 := fun x hx => hds x (List.mem_cons_of_mem d hx)
    simp only [List.map_cons, List.reverse_cons, List.foldl_append, List.foldl_cons,
      List.foldl_nil]
    rw [ih ht a]
    have hne : digitChar d ≠ '_' := by
      have := isDigit_digitChar d
      intro he
      rw [he] at this
      exact absurd this (by decide)
    rw [if_neg hne]
    have hval : digVal (digitChar d) = d := by
      interval_cases d <;> decide
    rw [hval, Nat.ofDigits_cons, List.length_cons, pow_succ]
    ring

theorem udVal_natDigits (n : Nat) : udVal (natDigits n) = n := by
  rcases Nat.eq_zero_or_pos n with h0 | hpos
  · subst h0; decide
  · rw [natDigits_eq_digits hpos]
    unfold udVal
    rw [foldl_digits_reverse (Nat.digits 10 n)
      (fun d hd => Nat.digits_lt_base (by norm_num) hd) 0]
    simp [Nat.ofDigits_digits]

theorem validUDAux_of_all_digits {l : PyStr} (h : ∀ c ∈ l, isDigit c = true) :
    validUDAux l = true := by
  induction l with
  | nil => rfl
  | cons c t ih =>
    have hc : isDigit c = true := h c (List.mem_cons_self c t)
    have hne : c ≠ '_' := by
      intro he; rw [he] at hc; exact absurd hc (by decide)
    rw [validUDAux, if_neg hne, hc, Bool.true_and]
    exact ih (fun x hx => h x (List.mem_cons_of_mem c hx))

theorem natDigits_ne_nil (n : Nat) : natDigits n ≠ [] := by
  rcases Nat.eq_zero_or_pos n with h0 | hpos
  · subst h0; decide
  · rw [natDigits_eq_digits hpos]
    simp only [ne_eq, List.reverse_eq_nil_iff, List.map_eq_nil_iff]
    exact Nat.digits_ne_nil_iff_ne_zero.mpr (Nat.pos_iff_ne_zero.mp hpos)

theorem validUD_natDigits (n : Nat) : validUD (natDigits n) = true := by
  have hall := fun c hc => mem_natDigits_isDigit (n := n) (c := c) hc
  match hd : natDigits n with
  | [] => exact absurd hd (natDigits_ne_nil n)
  | c :: t =>
    rw [hd] at hall
    rw [validUD]
    rw [hall c (List.mem_cons_self c t), Bool.true_and]
    exact validUDAux_of_all_digits (fun x hx => hall x (List.mem_cons_of_mem c hx))

theorem dropWhile_of_all_false {p : Char → Bool} {l : PyStr}
    (h : ∀ c ∈ l, p c = false) : l.dropWhile p = l := by
  cases l with
  | nil => rfl
  | cons c t =>
    rw [List.dropWhile_cons, if_neg]
    rw [h c (List.mem_cons_self c t)]
    exact Bool.false_ne_true

theorem pyStrip_of_no_space {l : PyStr} (h : ∀ c ∈ l, isSpace c = false) :
    pyStrip l = l := by
  unfold pyStrip pyLstrip pyRstrip
  rw [dropWhile_of_all_false (fun c hc => h c (List.mem_reverse.mp hc)),
    List.reverse_reverse, dropWhile_of_all_false h]

theorem isSpace_eq_false_of_isDigit {c : Char} (h : isDigit c = true) :
    isSpace c = false := by
  by_contra hs
  rw [Bool.not_eq_false] at hs
  have : c = ' ' ∨ c = '\t' ∨ c = '\n' ∨ c = '\r' ∨ c = '\x0b' ∨ c = '\x0c' := by
    simpa [isSpace, or_assoc] using hs
  rcases this with rfl | rfl | rfl | rfl | rfl | rfl <;> exact absurd h (by decide)

/-- Round trip of the numeral model: Python `int(str(n)) == n`. -/
theorem pyInt_natDigits (n : Nat) : pyInt (natDigits n) = some (n : Int) := by
  have hall := fun c hc => mem_natDigits_isDigit (n := n) (c := c) hc
  have hstrip : pyStrip (natDigits n) = natDigits n :=
    pyStrip_of_no_space (fun c hc => isSpace_eq_false_of_isDigit (hall c hc))
  obtain ⟨c, t, hd⟩ : ∃ c t, natDigits n = c :: t := by
    match hnd : natDigits n with
    | [] => exact absurd hnd (natDigits_ne_nil n)
    | c :: t => exact ⟨c, t, rfl⟩
  · have hc : isDigit c = true := by
      rw [hd] at hall; exact hall c (List.mem_cons_self c t)
    have hplus : c ≠ '+' := by
      intro he; rw [he] at hc; exact absurd hc (by decide)
    have hminus : c ≠ '-' := by
      intro he; rw [he] at hc; exact absurd hc (by decide)
    have hred : pyInt (natDigits n) = Option.map Int.ofNat (parseUD (c :: t)) := by
      unfold pyInt
      rw [hstrip, hd]
      dsimp only
      rw [if_neg hplus, if_neg hminus]
    rw [hred, ← hd]
    simp only [parseUD, validUD_natDigits n, if_pos rfl, udVal_natDigits n]
    rfl

-- ---------------------------------------------------------------------------
-- Helper lemmas: split / join
-- ---------------------------------------------------------------------------

theorem splitSep_no_sep {a : PyStr} (h : sepChar ∉ a) : splitSep a = [a] := by
  induction a with
  | nil => rfl
  | cons c t ih =>
    have hc : c ≠ sepChar := fun he => h (he ▸ List.mem_cons_self c t)
    have ht : sepChar ∉ t := fun hm => h (List.mem_cons_of_mem c hm)
    rw [splitSep, if_neg hc, ih ht]

theorem splitSep_append {a : PyStr} (rest : PyStr) (h : sepChar ∉ a) :
    splitSep (a ++ sepChar :: rest) = a :: splitSep rest := by
  induction a with
  | nil => simp [splitSep]
  | cons c t ih =>
    have hc : c ≠ sepChar := fun he => h (he ▸ List.mem_cons_self c t)
    have ht : sepChar ∉ t := fun hm => h (List.mem_cons_of_mem c hm)
    rw [List.cons_append, splitSep, if_neg hc, ih ht]

theorem sepChar_not_mem_natDigits (n : Nat) : sepChar ∉ natDigits n := by
  intro hm
  have := mem_natDigits_isDigit hm
  exact absurd this (by decide)

-- ---------------------------------------------------------------------------
-- Helper lemmas: `find?` and positions
-- ---------------------------------------------------------------------------

theorem find?_candIdx_le (p : PyStr → Bool) (l : List PyStr) (a b : PyStr)
    (hf : l.find? p = some a) (hb : b ∈ l) (hpb : p b = true) :
    candIdx a l ≤ candIdx b l := by
  induction l with
  | nil => simp at hf
  | cons c t ih =>
    by_cases hpc : p c = true
    · rw [List.find?_cons_of_pos _ hpc] at hf
      injection hf with hf
      subst hf
      rw [candIdx, if_pos rfl]
      exact Nat.zero_le _
    · rw [List.find?_cons_of_neg _ (by simpa using hpc)] at hf
      have hpa : p a = true := List.find?_some hf
      have hac : c ≠ a := fun he => hpc (he ▸ hpa)
      rcases List.mem_cons.mp hb with rfl | hbt
      · exact absurd hpb hpc
      · have hbc : c ≠ b := fun he => hpc (he ▸ hpb)
        rw [candIdx, if_neg hac, candIdx, if_neg hbc]
        exact Nat.succ_le_succ (ih hf hbt)

-- ---------------------------------------------------------------------------
-- Helper lemmas: quoted-identifier lexing
-- ---------------------------------------------------------------------------

theorem lexQuotedAux_escQuotes (s : PyStr) :
    ∀ rest : PyStr, rest.head? ≠ some dq →
      lexQuotedAux (escQuotes s ++ dq :: rest) = some (s, rest) := by
  induction s with
  | nil =>
    intro rest hrest
    simp only [escQuotes, List.flatMap_nil, List.nil_append]
    rw [lexQuotedAux, if_pos rfl]
    cases rest with
    | nil => rfl
    | cons d rest2 =>
      have hd : d ≠ dq := by
        intro he
        exact hrest (by rw [he]; rfl)
      rw [lexQuotedClose, if_neg hd]
  | cons c t ih =>
    intro rest hrest
    by_cases hc : c = dq
    · subst hc
      have hesc : escQuotes (dq :: t) = dq :: dq :: escQuotes t := by
        simp [escQuotes]
      rw [hesc, List.cons_append, List.cons_append, lexQuotedAux, if_pos rfl,
        lexQuotedClose, if_pos rfl]
      rw [ih rest hrest]
      rfl
    · have hesc : escQuotes (c :: t) = c :: escQuotes t := by
        simp [escQuotes, if_neg hc]
      rw [hesc, List.cons_append, lexQuotedAux, if_neg hc]
      rw [ih rest hrest]
      rfl

/-- The core no-breakout property: whatever follows the quoted identifier
(as long as it does not itself begin with a quote, which never happens in
the queries built by `bot/db.py`), lexing consumes exactly the quoted
identifier, recovers the original name, and leaves the rest untouched. -/
theorem lexQuoted_quote_ident (s rest : PyStr) (hrest : rest.head? ≠ some dq) :
    lexQuoted (quote_ident s ++ rest) = some (s, rest) := by
  have h1 : quote_ident s ++ rest = dq :: (escQuotes s ++ dq :: rest) := by
    simp [quote_ident]
  rw [h1, lexQuoted, if_pos rfl]
  exact lexQuotedAux_escQuotes s rest hrest

-- ---------------------------------------------------------------------------
-- Helper lemmas: byte lengths
-- ---------------------------------------------------------------------------

theorem pyLenBytes_append (a b : PyStr) :
    pyLenBytes (a ++ b) = pyLenBytes a + pyLenBytes b := by
  simp [pyLenBytes]

theorem pyLenBytes_cons (c : Char) (t : PyStr) :
    pyLenBytes (c :: t) = c.utf8Size + pyLenBytes t := by
  simp [pyLenBytes]

-- ---------------------------------------------------------------------------
-- Claim C2
-- ---------------------------------------------------------------------------

/-- C2: the claim states `_safe_identifier` accepts exactly the strings
matching `^[A-Za-z_][A-Za-z0-9_]*$` and rejects every string containing
whitespace.  The code violates this: CPython's `$` anchor also matches just
before a trailing newline, so `_safe_identifier("abc\n")` returns `True`
although `"abc\n"` contains whitespace and is not a full match of the
grammar.  This theorem evaluates the embedded code at the failing input. -/
theorem claim2_trailing_newline_bug :
    safe_identifier (str "abc\n") = true ∧
    matchesIdentGrammar (str "abc\n") = false ∧
    isSpace '\n' = true := by decide

-- ---------------------------------------------------------------------------
-- Claim C1
-- ---------------------------------------------------------------------------

/-- C1 counterexample: the claim fails twice on the code.  (a) `get_columns`
performs no identifier check at all: on the non-grammar name `"my table"`
(a legal quoted PostgreSQL table name present in `sampleDB`) it returns a
non-empty column list instead of an empty result.  (b) `"abc\n"` does not
match the grammar, yet `browse_table` accepts it (see C2) and interpolates
it into the issued count query rather than returning the empty result
without SQL. -/
theorem claim1_counterexample :
    matchesIdentGrammar (str "my table") = false ∧
    (get_columns sampleDB (str "my table")).1 = [str "x"] ∧
    matchesIdentGrammar (str "abc\n") = false ∧
    (browse_table sampleDB (str "abc\n") 20 0).2 =
      [⟨countSQL (str "abc\n"), []⟩] ∧
    isSubstr (str "abc\n") (countSQL (str "abc\n")) = true := by decide

/-- C1 amended: for every table name rejected by the code's
`_safe_identifier` check (which accepts the grammar plus a single trailing
newline, see C2), `describe_table` returns `([], [])`, `browse_table`
returns `([], [], 0)`, and `table_exists` returns `False`, each without
issuing any SQL at all; `get_columns` performs no identifier validation —
it always issues the one fixed catalog query with the name as a bound
parameter, never interpolated into the SQL text. -/
theorem claim1_amended_rejection (db : DB) (table : PyStr)
    (limit offset : Nat) (h : safe_identifier table = false) :
    describe_table db table = (([], []), []) ∧
    browse_table db table limit offset = (some ([], [], some 0), []) ∧
    table_exists db table = (false, []) ∧
    (get_columns db table).2 = [⟨DESCRIBE_SQL, [table]⟩] := by
  refine ⟨?_, ?_, ?_, rfl⟩
  · simp [describe_table, h]
  · simp [browse_table, h]
  · simp [table_exists, h]

/-- C1 amended, witness: concrete rejected identifier. -/
theorem claim1_amended_witness :
    browse_table sampleDB (str "users; DROP TABLE users") 20 0 =
      (some ([], [], some 0), []) :=
  (claim1_amended_rejection sampleDB (str "users; DROP TABLE users") 20 0
    (by decide)).2.1

-- ---------------------------------------------------------------------------
-- Claim C3
-- ---------------------------------------------------------------------------

/-- C3: `validate_select` applies its three rules in order with first
failure winning: a statement whose stripped text does not start
(case-insensitively) with `SELECT` gets the only-SELECT error; otherwise a
semicolon anywhere gets the semicolon error (even if a blocked keyword is
also present); otherwise a blocked keyword occurring as a case-insensitive
whole word gets an error naming a blocked keyword that so occurs; otherwise
no error (so a non-keyword word is never flagged). -/
theorem claim3_validate_rule_order (sql : PyStr) :
    ((str "SELECT").isPrefixOf (pyUpper (pyStrip sql)) = false →
       validate_select sql = some ONLY_SELECT_MSG) ∧
    ((str "SELECT").isPrefixOf (pyUpper (pyStrip sql)) = true →
       isSubstr [';'] (pyStrip sql) = true →
       validate_select sql = some SEMI_MSG) ∧
    ((str "SELECT").isPrefixOf (pyUpper (pyStrip sql)) = true →
       isSubstr [';'] (pyStrip sql) = false →
       (∀ kw ∈ BLOCKED_KEYWORDS, wholeWord kw (pyUpper (pyStrip sql)) = false) →
       validate_select sql = none) ∧
    ((str "SELECT").isPrefixOf (pyUpper (pyStrip sql)) = true →
       isSubstr [';'] (pyStrip sql) = false →
       (∃ kw ∈ BLOCKED_KEYWORDS, wholeWord kw (pyUpper (pyStrip sql)) = true) →
       ∃ kw2 ∈ BLOCKED_KEYWORDS, wholeWord kw2 (pyUpper (pyStrip sql)) = true ∧
         validate_select sql = some (kwMsg kw2)) := by
  refine ⟨?_, ?_, ?_, ?_⟩
  · intro h1
    simp [validate_select, h1]
  · intro h1 h2
    simp [validate_select, h1, h2]
  · intro h1 h2 h3
    have hf : BLOCKED_KEYWORDS.find?
        (fun kw => wholeWord kw (pyUpper (pyStrip sql))) = none :=
      List.find?_eq_none.mpr (fun kw hkw => by simp [h3 kw hkw])
    simp [validate_select, h1, h2, hf]
  · intro h1 h2 h3
    cases hf : BLOCKED_KEYWORDS.find?
        (fun kw => wholeWord kw (pyUpper (pyStrip sql))) with
    | none =>
      obtain ⟨kw, hkw, hww⟩ := h3
      have := List.find?_eq_none.mp hf kw hkw
      simp [hww] at this
    | some kw2 =>
      have hmem := List.mem_of_find?_eq_some hf
      have hww := List.find?_some hf
      exact ⟨kw2, hmem, hww, by simp [validate_select, h1, h2, hf]⟩

/-- C3 witness: the semicolon rule pre-empts the keyword rule on
`"select 1; drop table t"`, and `"SELECT * FROM orders"` passes all rules
(no blocked keyword occurs as a whole word). -/
theorem claim3_witness :
    validate_select (str "select 1; drop table t") = some SEMI_MSG ∧
    validate_select (str "SELECT * FROM orders") = none :=
  ⟨(claim3_validate_rule_order (str "select 1; drop table t")).2.1
      (by decide) (by decide),
   (claim3_validate_rule_order (str "SELECT * FROM orders")).2.2.1
      (by decide) (by decide) (by decide)⟩

-- ---------------------------------------------------------------------------
-- Claim C4
-- ---------------------------------------------------------------------------

/-- C4 counterexample: the claim says `ensure_limit` "appends
`\x20LIMIT <maxRows>`" to the text, i.e. returns `text + " LIMIT n"`, when no
LIMIT is present.  The code first strips trailing whitespace and semicolons
(`sql.rstrip().rstrip(";")`), so on `"SELECT 1;"` it returns
`"SELECT 1 LIMIT 100"`, not `"SELECT 1; LIMIT 100"`. -/
theorem claim4_counterexample :
    isSubstr (str "LIMIT") (pyUpper (str "SELECT 1;")) = false ∧
    ensure_limit (str "SELECT 1;") 100 = str "SELECT 1 LIMIT 100" ∧
    ensure_limit (str "SELECT 1;") 100 ≠ str "SELECT 1;" ++ str " LIMIT 100" := by
  decide

/-- C4 amended: `ensure_limit(text, maxRows)` appends `" LIMIT <maxRows>"`
to the text *with trailing whitespace and semicolons removed* exactly when
no `LIMIT` (case-insensitive) is present, otherwise returns the text
unchanged; `ensure_limit("SELECT * FROM t", 100)` is
`"SELECT * FROM t LIMIT 100"`, and the operation is idempotent: it never
double-appends. -/
theorem claim4_amended_ensure_limit (sql : PyStr) (n : Int) :
    (isSubstr (str "LIMIT") (pyUpper sql) = false →
       ensure_limit sql n =
         pyRstripSemi (pyRstrip sql) ++ str " LIMIT " ++ pyStrInt n) ∧
    (isSubstr (str "LIMIT") (pyUpper sql) = true → ensure_limit sql n = sql) ∧
    ensure_limit (str "SELECT * FROM t") 100 = str "SELECT * FROM t LIMIT 100" ∧
    ensure_limit (ensure_limit sql n) n = ensure_limit sql n := by
  refine ⟨?_, ?_, by decide, ?_⟩
  · intro h
    simp [ensure_limit, h]
  · intro h
    simp [ensure_limit, h]
  · by_cases h : isSubstr (str "LIMIT") (pyUpper sql) = true
    · simp [ensure_limit, h]
    · have h0 : isSubstr (str "LIMIT") (pyUpper sql) = false := by
        simpa using h
      have e1 : ensure_limit sql n =
          pyRstripSemi (pyRstrip sql) ++ str " LIMIT " ++ pyStrInt n := by
        simp [ensure_limit, h0]
      have hsub : isSubstr (str "LIMIT")
          (pyUpper (pyRstripSemi (pyRstrip sql) ++ str " LIMIT " ++ pyStrInt n)) =
          true := by
        rw [pyUpper_append, pyUpper_append]
        exact isSubstr_of_left _
          (isSubstr_of_right _ (by decide))
      rw [e1, ensure_limit, ← e1]
      rw [e1, hsub]
      simp

/-- C4 amended, witness. -/
theorem claim4_amended_witness :
    ensure_limit (str "SELECT 1; ") 100 =
      pyRstripSemi (pyRstrip (str "SELECT 1; ")) ++ str " LIMIT " ++ pyStrInt 100 :=
  (claim4_amended_ensure_limit (str "SELECT 1; ") 100).1 (by decide)

-- ---------------------------------------------------------------------------
-- Claim C5
-- ---------------------------------------------------------------------------

/-- C5: pagination codec round-trip — for every module string without the
separator, every offset ≥ 0, and every extra string without the separator,
`decode (encode module offset extra) = (module, offset, extra)`. -/
theorem claim5_codec_round_trip (module : PyStr) (offset : Int) (extra : PyStr)
    (hm : sepChar ∉ module) (ho : 0 ≤ offset) (he : sepChar ∉ extra) :
    decode (encode module offset extra) = some (module, offset, extra) := by
  have hpd : pyStrInt offset = natDigits offset.toNat := by
    rw [pyStrInt, if_neg (by omega : ¬ offset < 0)]
  have hdnocolon : sepChar ∉ pyStrInt offset := by
    rw [hpd]
    exact sepChar_not_mem_natDigits _
  have hpyint : pyInt (pyStrInt offset) = some offset := by
    rw [hpd, pyInt_natDigits, Int.toNat_of_nonneg ho]
  by_cases hextra : extra = []
  · subst hextra
    have henc : encode module offset [] =
        prefixTok ++ sepChar :: (module ++ sepChar :: pyStrInt offset) := by
      simp [encode, joinSep]
    have hsplit :
        splitSep (prefixTok ++ sepChar :: (module ++ sepChar :: pyStrInt offset)) =
        [prefixTok, module, pyStrInt offset] := by
      rw [splitSep_append _ (by decide), splitSep_append _ hm,
        splitSep_no_sep hdnocolon]
    rw [henc]
    simp [decode, hsplit, hpyint]
  · have hne : extra.isEmpty = false := by
      simpa using hextra
    have henc : encode module offset extra =
        prefixTok ++ sepChar ::
          (module ++ sepChar :: (pyStrInt offset ++ sepChar :: extra)) := by
      simp [encode, joinSep, hne]
    have hsplit :
        splitSep (prefixTok ++ sepChar ::
          (module ++ sepChar :: (pyStrInt offset ++ sepChar :: extra))) =
        [prefixTok, module, pyStrInt offset, extra] := by
      rw [splitSep_append _ (by decide), splitSep_append _ hm,
        splitSep_append _ hdnocolon, splitSep_no_sep he]
    rw [henc]
    simp [decode, hsplit, hpyint]

/-- C5 witness. -/
theorem claim5_witness :
    decode (encode (str "brw") 20 (str "steps_daily")) =
      some (str "brw", 20, str "steps_daily") :=
  claim5_codec_round_trip (str "brw") 20 (str "steps_daily")
    (by decide) (by decide) (by decide)

-- ---------------------------------------------------------------------------
-- Claim C6
-- ---------------------------------------------------------------------------

/-- C6 counterexample: the claim says `decode` is total and never throws,
with a malformed (non-integer) offset decoding to 0.  In the code
`offset = int(parts[2])` raises `ValueError` when the third field is
present but not an integer literal (`none` models the raised exception):
`decode("p:brw:x:steps")` throws instead of returning a triple. -/
theorem claim6_counterexample : decode (str "p:brw:x:steps") = none := by decide

/-- C6 amended: `decode` never indexes out of range — with at most two
fields it returns `(module-or-empty, 0, "")`, so a *missing* offset (and a
missing module or extra) defaults as claimed; whenever it does return a
triple, the module and extra are the positional fields (or empty when
missing); but `decode` is *not* total: it fails (raises `ValueError`)
exactly when a third field is present and does not parse as a Python
integer literal. -/
theorem claim6_amended_decode_leniency (data : PyStr) :
    ((splitSep data).length ≤ 2 →
      decode data = some ((splitSep data).getD 1 [], 0, [])) ∧
    (∀ m o e, decode data = some (m, o, e) →
      m = (splitSep data).getD 1 [] ∧ e = (splitSep data).getD 3 []) ∧
    (decode data = none ↔
      2 < (splitSep data).length ∧ pyInt ((splitSep data).getD 2 []) = none) := by
  by_cases hlen : 2 < (splitSep data).length
  · cases hp : pyInt ((splitSep data).getD 2 []) with
    | none =>
      refine ⟨fun h => absurd hlen (by omega), ?_, ?_⟩
      · intro m o e hdec
        rw [decode, if_pos hlen, hp] at hdec
        exact absurd hdec (by simp)
      · rw [decode, if_pos hlen, hp]
        simp [hlen, hp]
    | some o0 =>
      refine ⟨fun h => absurd hlen (by omega), ?_, ?_⟩
      · intro m o e hdec
        rw [decode, if_pos hlen, hp] at hdec
        simp only [Option.some.injEq, Prod.mk.injEq] at hdec
        obtain ⟨hm, _, he2⟩ := hdec
        exact ⟨hm.symm, he2.symm⟩
      · rw [decode, if_pos hlen, hp]
        simp [hp]
  · have hgd3 : (splitSep data).getD 3 [] = [] :=
      List.getD_eq_default _ _ (by omega)
    refine ⟨?_, ?_, ?_⟩
    · intro _
      rw [decode, if_neg hlen, hgd3]
    · intro m o e hdec
      rw [decode, if_neg hlen] at hdec
      simp only [Option.some.injEq, Prod.mk.injEq] at hdec
      obtain ⟨hm, _, he2⟩ := hdec
      exact ⟨hm.symm, he2.symm⟩
    · rw [decode, if_neg hlen]
      simp [hlen]

/-- C6 amended, witness: the display-only token `"noop"` (one field)
decodes without error to `("", 0, "")`. -/
theorem claim6_amended_witness : decode (str "noop") = some ([], 0, []) := by
  have h := (claim6_amended_decode_leniency (str "noop")).1 (by decide)
  have h1 : (splitSep (str "noop")).getD 1 [] = [] := by decide
  rw [h1] at h
  exact h

-- ---------------------------------------------------------------------------
-- Claim C7
-- ---------------------------------------------------------------------------

/-- C7 counterexample: nothing in the code bounds the token length.  A
63-byte table name (63 characters is PostgreSQL's identifier length limit,
and the name passes both the documented grammar and the code's
`_safe_identifier` check) produces a browse token
`p:brw:0:<name>` of 71 bytes, above the 64-byte ceiling. -/
theorem claim7_counterexample :
    matchesIdentGrammar (List.replicate 63 'a') = true ∧
    safe_identifier (List.replicate 63 'a') = true ∧
    browseToken (List.replicate 63 'a') =
      encode (str "brw") 0 (List.replicate 63 'a') ∧
    pyLenBytes (browseToken (List.replicate 63 'a')) = 71 := by decide

/-- C7 amended: an emitted token's byte length is exactly the byte lengths
of the module, the decimal offset, and the extra plus 4 (the `p` prefix and
three separators); in particular the browse token `p:brw:0:<table>` of
`table_actions` fits the 64-byte ceiling exactly when the table name is at
most 56 bytes — the code never enforces this, so longer (still legal)
table names exceed the ceiling. -/
theorem claim7_amended_token_length (module : PyStr) (offset : Int)
    (extra : PyStr) (he : extra ≠ []) :
    pyLenBytes (encode module offset extra) =
      pyLenBytes module + pyLenBytes (pyStrInt offset) + pyLenBytes extra + 4 ∧
    (pyLenBytes (browseToken extra) ≤ 64 ↔ pyLenBytes extra ≤ 56) := by
  have hne : extra.isEmpty = false := by simpa using he
  have henc : ∀ (m : PyStr) (o : Int), encode m o extra =
      prefixTok ++ sepChar :: (m ++ sepChar :: (pyStrInt o ++ sepChar :: extra)) := by
    intro m o
    simp [encode, joinSep, hne]
  have hlen : ∀ (m : PyStr) (o : Int), pyLenBytes (encode m o extra) =
      pyLenBytes m + pyLenBytes (pyStrInt o) + pyLenBytes extra + 4 := by
    intro m o
    rw [henc m o, pyLenBytes_append, pyLenBytes_cons, pyLenBytes_append,
      pyLenBytes_cons, pyLenBytes_append, pyLenBytes_cons]
    have h1 : pyLenBytes prefixTok = 1 := by decide
    have h2 : (sepChar : Char).utf8Size = 1 := by decide
    rw [h1, h2]
    omega
  refine ⟨hlen module offset, ?_⟩
  have h3 : pyLenBytes (browseToken extra) = pyLenBytes extra + 8 := by
    rw [browseToken, hlen (str "brw") 0]
    have h4 : pyLenBytes (str "brw") = 3 := by decide
    have h5 : pyLenBytes (pyStrInt 0) = 1 := by decide
    rw [h4, h5]
    omega
  rw [h3]
  omega

/-- C7 amended, witness. -/
theorem claim7_amended_witness :
    pyLenBytes (encode (str "brw") 0 (str "steps_daily")) =
      pyLenBytes (str "brw") + pyLenBytes (pyStrInt 0) +
        pyLenBytes (str "steps_daily") + 4 :=
  (claim7_amended_token_length (str "brw") 0 (str "steps_daily") (by decide)).1

-- ---------------------------------------------------------------------------
-- Claim C8
-- ---------------------------------------------------------------------------

/-- C8: weight-domain resolution is first-match-wins.  (a) Whenever `init`
resolves a mapping, its table is a candidate that exists and no earlier
candidate exists (its position is minimal among existing candidates, so
later candidates are ignored even if they also exist).  (b) If the selected
table resolves no date column or no value column, `init` fails and the
domain is unavailable.  (c) The spec's example: columns
`["id","measured_at","weight_kg"]` with date candidates
`["date","measured_at"]` and value candidates `["weight_kg","weight"]`
resolve to `measured_at` / `weight_kg`; on `weightDB` (where the later
candidate table `weight` also exists) `init` picks `measurements_weight`
and those columns. -/
theorem claim8_weight_resolution :
    (∀ db m, weightInit db = some m →
       m.table ∈ TABLE_CANDIDATES ∧ (table_exists db m.table).1 = true ∧
       ∀ t ∈ TABLE_CANDIDATES, (table_exists db t).1 = true →
         candIdx m.table TABLE_CANDIDATES ≤ candIdx t TABLE_CANDIDATES) ∧
    (∀ db t, TABLE_CANDIDATES.find? (fun c => (table_exists db c).1) = some t →
       (first_match (get_columns db t).1 DATE_CANDIDATES = none ∨
        first_match (get_columns db t).1 VALUE_CANDIDATES = none) →
       weightInit db = none) ∧
    first_match [str "id", str "measured_at", str "weight_kg"]
      [str "date", str "measured_at"] = some (str "measured_at") ∧
    first_match [str "id", str "measured_at", str "weight_kg"]
      [str "weight_kg", str "weight"] = some (str "weight_kg") ∧
    weightInit weightDB =
      some ⟨str "measurements_weight", str "measured_at", str "weight_kg", none⟩ := by
  refine ⟨?_, ?_, by decide, by decide, by decide⟩
  · intro db m hinit
    rw [weightInit] at hinit
    cases hf : TABLE_CANDIDATES.find? (fun c => (table_exists db c).1) with
    | none => rw [hf] at hinit; exact absurd hinit (by simp)
    | some t =>
      rw [hf] at hinit
      dsimp only at hinit
      have hmem := List.mem_of_find?_eq_some hf
      have hex := List.find?_some hf
      have htab : m.table = t := by
        cases hd : first_match (get_columns db t).1 DATE_CANDIDATES with
        | none => rw [hd] at hinit; exact absurd hinit (by simp)
        | some d =>
          cases hv : first_match (get_columns db t).1 VALUE_CANDIDATES with
          | none => rw [hd, hv] at hinit; exact absurd hinit (by simp)
          | some v =>
            rw [hd, hv] at hinit
            simp only [Option.some.injEq] at hinit
            rw [← hinit]
      rw [htab]
      refine ⟨hmem, hex, ?_⟩
      intro c hc hcex
      exact find?_candIdx_le _ TABLE_CANDIDATES t c hf hc hcex
  · intro db t hf hroles
    rw [weightInit, hf]
    dsimp only
    rcases hroles with hd | hv
    · rw [hd]
    · rw [hv]
      cases first_match (get_columns db t).1 DATE_CANDIDATES <;> rfl

/-- C8 witness: the general part instantiated on `weightDB`. -/
theorem claim8_witness :
    (str "measurements_weight") ∈ TABLE_CANDIDATES ∧
    (table_exists weightDB (str "measurements_weight")).1 = true := by
  have h := (claim8_weight_resolution).1 weightDB
    ⟨str "measurements_weight", str "measured_at", str "weight_kg", none⟩
    (by decide)
  exact ⟨h.1, h.2.1⟩

-- ---------------------------------------------------------------------------
-- Claim C9
-- ---------------------------------------------------------------------------

/-- C9: `browse_table` on a safe table name whose table holds 0 rows
returns empty headers, an empty row list, and total count 0, with the count
query (and the data query) still executed; in general, whenever the data
query returns no rows, the headers and rows are empty but the computed
total count is still returned. -/
theorem claim9_browse_empty (db : DB) (table : PyStr) (limit offset : Nat)
    (tb : Table) (hsafe : safe_identifier table = true)
    (hfind : db.find table = some tb) :
    (tb.rows = [] →
       browse_table db table limit offset =
         (some ([], [], some 0),
          [⟨countSQL table, []⟩,
           ⟨dataSQL table, [natDigits limit, natDigits offset]⟩])) ∧
    (pageRows tb.rows limit offset = [] →
       (browse_table db table limit offset).1 =
         some ([], [], some (tb.rows.length : Int)) ∧
       ⟨countSQL table, []⟩ ∈ (browse_table db table limit offset).2) := by
  constructor
  · intro hrows
    rw [browse_table, if_pos hsafe, hfind]
    dsimp only
    rw [hrows]
    simp [pageRows, sortRowsDesc]
  · intro hempty
    rw [browse_table, if_pos hsafe, hfind]
    dsimp only
    simp [hempty]

/-- C9 witness: the empty table of `sampleDB`. -/
theorem claim9_witness :
    browse_table sampleDB (str "empty_tbl") 20 0 =
      (some ([], [], some 0),
       [⟨countSQL (str "empty_tbl"), []⟩,
        ⟨dataSQL (str "empty_tbl"), [natDigits 20, natDigits 0]⟩]) :=
  (claim9_browse_empty sampleDB (str "empty_tbl") 20 0
      ⟨str "empty_tbl", [⟨str "id", str "integer", str "NO", none⟩], [], []⟩
      (by decide) (by decide)).1 (by decide)

-- ---------------------------------------------------------------------------
-- Claim C10
-- ---------------------------------------------------------------------------

/-- C10: `_quote_ident` wraps its argument in double quotes with every
embedded double quote doubled, and the quoted identifier can never
terminate its quoted context early: lexing a quoted identifier followed by
any non-quote continuation consumes exactly the identifier and recovers the
original string.  Consequently, in the queries built by `get_row_count` and
`get_rows` (which interpolate `_quote_ident` output), the identifier cannot
break out of its quotes: lexing the quoted schema/table of
`get_row_count`'s query text recovers them exactly. -/
theorem claim10_quote_ident_no_breakout :
    (∀ s : PyStr, quote_ident s = dq :: escQuotes s ++ [dq]) ∧
    (∀ s rest : PyStr, rest.head? ≠ some dq →
       lexQuoted (quote_ident s ++ rest) = some (s, rest)) ∧
    (∀ table_name schema : PyStr,
       get_row_count_sql table_name schema =
         str "SELECT COUNT(*) FROM " ++
           (quote_ident schema ++ '.' :: quote_ident table_name) ∧
       lexQuoted (quote_ident schema ++ '.' :: quote_ident table_name) =
         some (schema, '.' :: quote_ident table_name) ∧
       lexQuoted (quote_ident table_name) = some (table_name, [])) := by
  refine ⟨fun s => rfl, lexQuoted_quote_ident, ?_⟩
  intro table_name schema
  refine ⟨by simp [get_row_count_sql], ?_, ?_⟩
  · refine lexQuoted_quote_ident schema ('.' :: quote_ident table_name) ?_
    intro h
    rw [List.head?_cons] at h
    exact absurd (Option.some.inj h) (by decide)
  · have h := lexQuoted_quote_ident table_name []
      (by intro h2; exact absurd h2 (by simp))
    rw [List.append_nil] at h
    exact h

/-- C10 witness: a name containing a double quote survives the round trip
and does not escape its quoted context. -/
theorem claim10_witness :
    lexQuoted (quote_ident (str "we\"ird") ++ str ".x") =
      some (str "we\"ird", str ".x") :=
  claim10_quote_ident_no_breakout.2.1 (str "we\"ird") (str ".x") (by decide)
